import Mathlib

/-!
Shallow embedding of the interactive thermal-image region editor from
`Codes/Artificial damaged data creation tool/undamaged_to_damaged_convertor.py`
(class `ThermalImageEditor`).

Modelling conventions:
* numpy float64 temperature values are modelled as exact rationals `ℚ`;
* the 2-D numpy array `self.data` is a list of rows (`Mat`); a boolean mask
  is a list of rows of `Bool` (`Mask`);
* UI-only state (figure, axes, image handle, the matplotlib polygon patch and
  the never-read `drawing` flag) is omitted; user-visible signals
  (`messagebox` warnings, prints, dialog results) are modelled as outcome
  values returned next to the successor state;
* `create_polygon_mask` calls `matplotlib.path.Path.contains_points`, an
  external library routine; the mask it produces is taken as a parameter of
  `fill_region`, exactly as the spec's Region Editor contract
  `fill(matrix, mask, value)` does.
-/

namespace ThermalEditor

/-- Temperature matrix: a list of rows of pixel values (numpy 2-D float array,
floats modelled as exact rationals). -/
abbrev Mat := List (List ℚ)

/-- Boolean pixel mask with the same layout as a matrix. -/
abbrev Mask := List (List Bool)

/-- Integer pixel coordinates, as produced by `int(event.xdata), int(event.ydata)`
in `on_click`. -/
abbrev Point := Int × Int

/-- Number of rows: numpy `self.data.shape[0]`. -/
def rows (m : Mat) : Nat := m.length

/-- Number of columns: numpy `self.data.shape[1]` of the rectangular array,
read off the first row. -/
def cols (m : Mat) : Nat := (m.headD []).length

/-- The mutable state of a `ThermalImageEditor` session: the working matrix
`self.data`, the retained snapshot `self.original_data`, the in-progress
vertex list `self.points` and the committed polygon `self.current_selection`.
All four start out empty in `__init__`. -/
structure EditorState where
  data : Option Mat
  original_data : Option Mat
  points : List Point
  current_selection : Option (List Point)
deriving DecidableEq, Repr

/-- State built by `__init__`: nothing loaded, no points, no selection. -/
def initState : EditorState :=
  { data := none, original_data := none, points := [], current_selection := none }

/-- `load_csv` with the parsed file contents `m` (the file dialog and
`pd.read_csv` parsing are external): sets `self.data` to the parsed values and
retains the snapshot `self.original_data = self.data.copy()`. -/
def load_csv (m : Mat) (s : EditorState) : EditorState :=
  { s with data := some m, original_data := some m }

/-- `on_click` for a left click at integer coordinates `(x, y)`: appends the
point when `0 <= x < self.data.shape[1] and 0 <= y < self.data.shape[0]`,
otherwise does nothing (silent out-of-bounds no-op).  When `self.data` is
`None` the Python code would raise before the bounds check; no claim touches
that state, and it is modelled as a no-op. -/
def on_click (s : EditorState) (x y : Int) : EditorState :=
  match s.data with
  | none => s
  | some m =>
      if 0 ≤ x ∧ x < (cols m : Int) ∧ 0 ≤ y ∧ y < (rows m : Int) then
        { s with points := s.points ++ [(x, y)] }
      else s

/-- Outcome of `close_region`: the `messagebox.showwarning` on fewer than 3
points, or a successful close. -/
inductive CloseResult where
  | insufficientPoints
  | closed
deriving DecidableEq, Repr

/-- `close_region`: with fewer than 3 points it warns and returns without
touching any state; otherwise it commits
`self.current_selection = self.points.copy()` (the point list itself is kept). -/
def close_region (s : EditorState) : EditorState × CloseResult :=
  if s.points.length < 3 then (s, CloseResult.insufficientPoints)
  else ({ s with current_selection := some s.points }, CloseResult.closed)

/-- The ENTER branch of `on_key_press`: calls `close_region` only when the
point count is at least 3. -/
def on_key_enter (s : EditorState) : EditorState :=
  if 3 ≤ s.points.length then (close_region s).1 else s

/-- `cancel_selection`: clears the point list and the committed selection
(the polygon patch removal and redraw are display-only). -/
def cancel_selection (s : EditorState) : EditorState :=
  { s with points := [], current_selection := none }

/-- The masked in-place overwrite `self.data[mask] = fill_value`: every pixel
whose mask entry is true becomes `v`, every other pixel keeps its value. -/
def fillMask (d : Mat) (mask : Mask) (v : ℚ) : Mat :=
  List.zipWith (fun dr mr => List.zipWith (fun a b => if b then v else a) dr mr) d mask

/-- `np.sum(mask)` for a boolean mask: the number of true entries, used by the
code both for the pixel count display and for the modified-pixel report. -/
def countTrue (mask : Mask) : Nat := (mask.map (fun r => r.count true)).sum

/-- `tkinter.simpledialog.askfloat` with `minvalue`/`maxvalue`: the dialog
re-prompts until the entry is a float within `[lo, hi]` or the user cancels,
so the returned value is `None` or lies within the bounds.  Modelled as a
function of the user's entry: an out-of-range entry never comes back. -/
def askfloat (lo hi : ℚ) (input : Option ℚ) : Option ℚ :=
  match input with
  | none => none
  | some v => if lo ≤ v ∧ v ≤ hi then some v else none

/-- Python truthiness of `self.current_selection` in
`if not self.current_selection`: `None` and the empty list are falsy. -/
def selTruthy : Option (List Point) → Bool
  | none => false
  | some ps => !ps.isEmpty

/-- Outcome of `fill_region`: the two warning paths, the caught-exception path
(shape mismatch or unloaded data), a user cancel of the value dialog, or a
successful fill reporting `np.sum(mask)` modified pixels. -/
inductive FillOutcome where
  | noSelection
  | emptySelection
  | shapeError
  | cancelled
  | filled (count : Nat)
deriving DecidableEq, Repr

/-- `fill_region`, with the rasterised `mask` (computed externally by
`matplotlib.path.Path.contains_points` from `self.current_selection`) and the
user's dialog entry `input` as parameters.  Follows the Python control flow:
selection truthiness guard, `np.any(mask)` emptiness guard, the numpy
boolean-indexing shape requirement (an `IndexError` is caught by the
surrounding `except`, mutating nothing), the bounded `askfloat` prompt, then
`self.data[mask] = fill_value` followed by `cancel_selection`. -/
def fill_region (s : EditorState) (mask : Mask) (input : Option ℚ) :
    EditorState × FillOutcome :=
  if selTruthy s.current_selection = false then (s, FillOutcome.noSelection)
  else
    match s.data with
    | none => (s, FillOutcome.shapeError)
    | some d =>
        if countTrue mask = 0 then (s, FillOutcome.emptySelection)
        else if mask.map List.length ≠ d.map List.length then (s, FillOutcome.shapeError)
        else
          match askfloat 0 100 input with
          | none => (s, FillOutcome.cancelled)
          | some v =>
              (cancel_selection { s with data := some (fillMask d mask v) },
               FillOutcome.filled (countTrue mask))

/-- Outcome of `reset_image`: the source guards on
`if self.original_data is not None` and has no else branch, so the
before-any-load call is a silent skip — the code defines no error signal for
it. -/
inductive ResetOutcome where
  | skipped
  | resetDone
deriving DecidableEq, Repr

/-- `reset_image`: when a snapshot exists, restores
`self.data = self.original_data.copy()` and cancels the selection; when no
snapshot exists the guard fails and nothing at all happens. -/
def reset_image (s : EditorState) : EditorState × ResetOutcome :=
  match s.original_data with
  | none => (s, ResetOutcome.skipped)
  | some orig => (cancel_selection { s with data := some orig }, ResetOutcome.resetDone)

/-- `undo_last_action`: the body is a single call to `self.reset_image()`. -/
def undo_last_action (s : EditorState) : EditorState × ResetOutcome :=
  reset_image s

/-- `pandas.DataFrame(data).to_csv(...)` at the level of file layout: the
`header` flag writes the column-index header row, the `index` flag prepends
the row index as a first column.  Cell contents are modelled as exact numbers
(the pandas default float formatting round-trips float64 values). -/
def to_csv (m : Mat) (header index : Bool) : Mat :=
  let withIndex : Mat :=
    if index then m.enum.map (fun p => ((p.1 : ℚ) :: p.2)) else m
  if header then ((List.range (cols m)).map (fun j => (j : ℚ))) :: withIndex
  else withIndex

/-- `save_csv` body: `pd.DataFrame(self.data).to_csv(filepath, header=False,
index=False)` — no header row, no index column. -/
def save_csv (m : Mat) : Mat := to_csv m false false

/-- `pd.read_csv(filepath, header=None).values`: with `header=None` every line
of the file is read as a data row. -/
def read_csv_values (file : Mat) : Mat := file

/-- Pixel accessor with out-of-range default 0, used to state pixelwise
properties without dependent indexing. -/
def pix (d : Mat) (i j : Nat) : ℚ := (d.getD i []).getD j 0

/-- Mask-entry accessor with out-of-range default `false`. -/
def mpix (mask : Mask) (i j : Nat) : Bool := (mask.getD i []).getD j false

/-- Specification-side count of true mask entries: the number of index pairs
`(i, j)` within the mask layout whose entry is true. -/
def trueCount (mask : Mask) : Nat :=
  ((List.range mask.length).map
    (fun i => ((List.range (mask.getD i []).length).filter
      (fun j => mpix mask i j)).length)).sum

/-- One user-visible action on the editor after a load, each parameterised by
the external inputs its handler consumes. -/
inductive Action where
  | click (x y : Int)
  | keyEnter
  | cancel
  | fill (mask : Mask) (input : Option ℚ)
  | reset
  | undo

/-- Dispatch one action to its handler, keeping only the successor state. -/
def step (s : EditorState) : Action → EditorState
  | Action.click x y => on_click s x y
  | Action.keyEnter => on_key_enter s
  | Action.cancel => cancel_selection s
  | Action.fill mask input => (fill_region s mask input).1
  | Action.reset => (reset_image s).1
  | Action.undo => (undo_last_action s).1

/-- Run a finite sequence of actions from a state. -/
def steps (acts : List Action) (s : EditorState) : EditorState := acts.foldl step s

/-- Apply a sequence of clicks (for the cancel-then-redraw scenario). -/
def applyClicks (ps : List Point) (s : EditorState) : EditorState :=
  ps.foldl (fun t p => on_click t p.1 p.2) s

/-- A working pixel value is acceptable when it still equals the originally
loaded value or lies within the fill dialog's `[0, 100]` bounds. -/
def pixOK (a b : ℚ) : Prop := b = a ∨ (0 ≤ b ∧ b ≤ 100)

/-- Pointwise relation between the originally loaded matrix and the working
matrix: same layout, every pixel acceptable. -/
def matOK (orig d : Mat) : Prop := List.Forall₂ (List.Forall₂ pixOK) orig d

/-! Basic preservation lemmas: which fields each handler can touch. -/

lemma on_click_data (s : EditorState) (x y : Int) : (on_click s x y).data = s.data := by
  obtain ⟨d, od, pts, sel⟩ := s
  unfold on_click
  cases d with
  | none => rfl
  | some m => dsimp only; split <;> rfl

lemma on_click_original (s : EditorState) (x y : Int) :
    (on_click s x y).original_data = s.original_data := by
  obtain ⟨d, od, pts, sel⟩ := s
  unfold on_click
  cases d with
  | none => rfl
  | some m => dsimp only; split <;> rfl

lemma on_click_selection (s : EditorState) (x y : Int) :
    (on_click s x y).current_selection = s.current_selection := by
  obtain ⟨d, od, pts, sel⟩ := s
  unfold on_click
  cases d with
  | none => rfl
  | some m => dsimp only; split <;> rfl

lemma close_region_data (s : EditorState) : ((close_region s).1).data = s.data := by
  unfold close_region; split <;> rfl

lemma close_region_original (s : EditorState) :
    ((close_region s).1).original_data = s.original_data := by
  unfold close_region; split <;> rfl

lemma on_key_enter_data (s : EditorState) : (on_key_enter s).data = s.data := by
  unfold on_key_enter; split
  · exact close_region_data s
  · rfl

lemma on_key_enter_original (s : EditorState) :
    (on_key_enter s).original_data = s.original_data := by
  unfold on_key_enter; split
  · exact close_region_original s
  · rfl

lemma fill_region_original (s : EditorState) (mask : Mask) (input : Option ℚ) :
    ((fill_region s mask input).1).original_data = s.original_data := by
  unfold fill_region
  split
  · rfl
  · split
    · rfl
    · split
      · rfl
      · split
        · rfl
        · split <;> rfl

lemma reset_image_original (s : EditorState) :
    ((reset_image s).1).original_data = s.original_data := by
  obtain ⟨d, od, pts, sel⟩ := s
  unfold reset_image
  cases od with
  | none => rfl
  | some orig => rfl

/-- One editor action never touches the retained original snapshot. -/
lemma step_original (s : EditorState) (a : Action) :
    (step s a).original_data = s.original_data := by
  cases a with
  | click x y => exact on_click_original s x y
  | keyEnter => exact on_key_enter_original s
  | cancel => rfl
  | fill mask input => exact fill_region_original s mask input
  | reset => exact reset_image_original s
  | undo => exact reset_image_original s

/-- No sequence of editor actions ever touches the retained original snapshot. -/
lemma steps_original (acts : List Action) (s : EditorState) :
    (steps acts s).original_data = s.original_data := by
  induction acts generalizing s with
  | nil => rfl
  | cons a t ih =>
      show (steps t (step s a)).original_data = s.original_data
      rw [ih (step s a), step_original]

/-- CLAIM C3.  Saving the working matrix and loading the saved file yields the
matrix back unchanged, and save writes exactly the data rows: no header row
and no index column (`to_csv` with both flags false). -/
theorem save_load_round_trip (m : Mat) :
    read_csv_values (save_csv m) = m ∧ save_csv m = to_csv m false false :=
  ⟨rfl, rfl⟩

/-- CLAIM C4.  Closing the selection succeeds exactly when at least 3 points
were placed; with fewer than 3 points it signals insufficient points and
changes nothing; on success it commits the point list as the polygon and
leaves the matrix, snapshot and point list untouched. -/
theorem close_region_iff_three_points (s : EditorState) :
    ((close_region s).2 = CloseResult.closed ↔ 3 ≤ s.points.length) ∧
    (s.points.length < 3 → close_region s = (s, CloseResult.insufficientPoints)) ∧
    (3 ≤ s.points.length →
      (close_region s).2 = CloseResult.closed ∧
      ((close_region s).1).current_selection = some s.points ∧
      ((close_region s).1).data = s.data ∧
      ((close_region s).1).points = s.points ∧
      ((close_region s).1).original_data = s.original_data) := by
  unfold close_region
  by_cases h : s.points.length < 3
  · rw [if_pos h]
    refine ⟨?_, fun _ => rfl, fun h3 => absurd h3 (by omega)⟩
    constructor
    · intro hc; exact CloseResult.noConfusion hc
    · intro h3; exact absurd h3 (by omega)
  · rw [if_neg h]
    refine ⟨⟨fun _ => by omega, fun _ => rfl⟩, fun hlt => absurd hlt h,
      fun _ => ⟨rfl, rfl, rfl, rfl, rfl⟩⟩

/-- Witness for C4 at concrete states: a two-point selection is refused and
left unchanged; a triangle selection closes and commits its points. -/
theorem close_region_witness :
    close_region { initState with points := [(0, 0), (1, 1)] } =
      ({ initState with points := [(0, 0), (1, 1)] }, CloseResult.insufficientPoints) ∧
    ((close_region { initState with points := [(0, 0), (2, 0), (0, 2)] }).2 =
        CloseResult.closed ∧
      ((close_region { initState with points := [(0, 0), (2, 0), (0, 2)] }).1).current_selection =
        some [(0, 0), (2, 0), (0, 2)]) :=
  ⟨(close_region_iff_three_points { initState with points := [(0, 0), (1, 1)] }).2.1
      (by decide),
   ⟨((close_region_iff_three_points
        { initState with points := [(0, 0), (2, 0), (0, 2)] }).2.2 (by decide)).1,
    ((close_region_iff_three_points
        { initState with points := [(0, 0), (2, 0), (0, 2)] }).2.2 (by decide)).2.1⟩⟩

/-- CLAIM C6 counterexample.  Reset before any load: the source guards on
`if self.original_data is not None` with no else branch, so nothing happens
and nothing is signalled — the claimed `NoOriginalLoaded` signal does not
exist in the code. -/
theorem reset_before_load_silent_skip :
    reset_image initState = (initState, ResetOutcome.skipped) := rfl

/-- CLAIM C6 amended.  Reset with no snapshot is a silent no-op (state
unchanged, no error signalled); reset with a snapshot always succeeds,
restoring the working matrix to the snapshot and clearing the selection. -/
theorem reset_amended (s : EditorState) :
    (s.original_data = none → reset_image s = (s, ResetOutcome.skipped)) ∧
    (∀ orig, s.original_data = some orig →
      (reset_image s).2 = ResetOutcome.resetDone ∧
      ((reset_image s).1).data = some orig ∧
      ((reset_image s).1).points = [] ∧
      ((reset_image s).1).current_selection = none ∧
      ((reset_image s).1).original_data = some orig) := by
  obtain ⟨d, od, pts, sel⟩ := s
  constructor
  · intro h
    cases h
    rfl
  · intro orig h
    cases h
    exact ⟨rfl, rfl, rfl, rfl, rfl⟩

/-- Witness for the amended C6 at a concrete loaded state. -/
theorem reset_amended_witness :
    (reset_image (load_csv [[(1 : ℚ), 2]] initState)).2 = ResetOutcome.resetDone ∧
    ((reset_image (load_csv [[(1 : ℚ), 2]] initState)).1).data = some [[(1 : ℚ), 2]] ∧
    ((reset_image (load_csv [[(1 : ℚ), 2]] initState)).1).points = [] ∧
    ((reset_image (load_csv [[(1 : ℚ), 2]] initState)).1).current_selection = none ∧
    ((reset_image (load_csv [[(1 : ℚ), 2]] initState)).1).original_data =
      some [[(1 : ℚ), 2]] :=
  (reset_amended (load_csv [[(1 : ℚ), 2]] initState)).2 [[(1 : ℚ), 2]] rfl

/-- CLAIM C9.  Undo is observably identical to reset: `undo_last_action` is a
single call to `reset_image`, with no undo stack. -/
theorem undo_equals_reset (s : EditorState) : undo_last_action s = reset_image s := rfl

/-- CLAIM C5.  With a committed selection whose rasterised mask has zero true
entries, `fill_region` signals the empty-selection warning and returns the
state exactly as it was: no pixel is mutated. -/
theorem fill_empty_mask_no_mutation (s : EditorState) (d : Mat) (mask : Mask)
    (input : Option ℚ) (hd : s.data = some d)
    (hsel : selTruthy s.current_selection = true) (hzero : countTrue mask = 0) :
    fill_region s mask input = (s, FillOutcome.emptySelection) := by
  obtain ⟨dd, od, pts, sel⟩ := s
  cases hd
  simp [fill_region, hsel, hzero]

/-- Witness for C5: a loaded one-pixel image, a committed triangle selection,
an all-false mask. -/
theorem fill_empty_mask_witness :
    fill_region { data := some [[(5 : ℚ)]], original_data := some [[(5 : ℚ)]], points := [], current_selection := some [(0, 0), (1, 0), (0, 1)] } [[false]] (some 7) =
      ({ data := some [[(5 : ℚ)]], original_data := some [[(5 : ℚ)]], points := [], current_selection := some [(0, 0), (1, 0), (0, 1)] },
       FillOutcome.emptySelection) :=
  fill_empty_mask_no_mutation _ [[(5 : ℚ)]] [[false]] (some 7) rfl rfl rfl

/-- CLAIM C7.  A left click appends its point to the in-progress list exactly
when the coordinates lie inside the grid bounds; an out-of-bounds click is a
silent no-op, and a click never touches the matrix or the committed
selection. -/
theorem on_click_appends_iff_in_bounds (s : EditorState) (m : Mat) (x y : Int)
    (hd : s.data = some m) :
    (((on_click s x y).points = s.points ++ [(x, y)]) ↔
      (0 ≤ x ∧ x < (cols m : Int) ∧ 0 ≤ y ∧ y < (rows m : Int))) ∧
    (¬(0 ≤ x ∧ x < (cols m : Int) ∧ 0 ≤ y ∧ y < (rows m : Int)) →
      on_click s x y = s) ∧
    (on_click s x y).data = s.data ∧
    (on_click s x y).current_selection = s.current_selection := by
  obtain ⟨dd, od, pts, sel⟩ := s
  cases hd
  refine ⟨?_, ?_, on_click_data _ x y, on_click_selection _ x y⟩
  · unfold on_click
    dsimp only
    by_cases h : 0 ≤ x ∧ x < (cols m : Int) ∧ 0 ≤ y ∧ y < (rows m : Int)
    · rw [if_pos h]
      exact ⟨fun _ => h, fun _ => rfl⟩
    · rw [if_neg h]
      constructor
      · intro hp
        exact absurd (List.self_eq_append_right.mp hp) (by simp)
      · intro hb
        exact absurd hb h
  · intro hnb
    unfold on_click
    dsimp only
    rw [if_neg hnb]

/-- Witness for C7 on a loaded 2 by 2 image: the in-bounds click (1, 0) is
appended; the out-of-bounds click (2, 0) is a no-op. -/
theorem on_click_witness :
    (on_click (load_csv [[(1 : ℚ), 2], [3, 4]] initState) 1 0).points = [(1, 0)] ∧
    on_click (load_csv [[(1 : ℚ), 2], [3, 4]] initState) 2 0 =
      load_csv [[(1 : ℚ), 2], [3, 4]] initState :=
  ⟨((on_click_appends_iff_in_bounds (load_csv [[(1 : ℚ), 2], [3, 4]] initState)
      [[(1 : ℚ), 2], [3, 4]] 1 0 rfl).1).mpr (by decide),
   (on_click_appends_iff_in_bounds (load_csv [[(1 : ℚ), 2], [3, 4]] initState)
      [[(1 : ℚ), 2], [3, 4]] 2 0 rfl).2.1 (by decide)⟩

/-- CLAIM C8.  Cancel empties the point list and the committed selection
without touching the matrix, and any click sequence after a cancel evolves
the editor exactly as it would from a freshly initialised selection over the
same matrices. -/
theorem cancel_then_clicks_as_fresh (s : EditorState) (ps : List Point) :
    (cancel_selection s).points = [] ∧
    (cancel_selection s).current_selection = none ∧
    (cancel_selection s).data = s.data ∧
    applyClicks ps (cancel_selection s) =
      applyClicks ps { initState with data := s.data, original_data := s.original_data } := by
  refine ⟨rfl, rfl, rfl, ?_⟩
  have h : cancel_selection s =
      { initState with data := s.data, original_data := s.original_data } := by
    cases s
    rfl
  rw [h]

/-- After a load, reset always succeeds and hands back a state that holds the
retained snapshot as its working matrix. -/
lemma reset_data_of_original (s : EditorState) (m : Mat)
    (h : s.original_data = some m) :
    ((reset_image s).1).data = some m ∧ (reset_image s).2 = ResetOutcome.resetDone := by
  obtain ⟨dd, od, pts, sel⟩ := s
  cases h
  exact ⟨rfl, rfl⟩

/-- CLAIM C2.  For every loaded matrix and every finite sequence of editor
actions (fills included), the retained original snapshot is still exactly the
loaded matrix, and a reset restores the working matrix to it. -/
theorem reset_restores_original (m : Mat) (acts : List Action) :
    (steps acts (load_csv m initState)).original_data = some m ∧
    ((reset_image (steps acts (load_csv m initState))).1).data = some m ∧
    (reset_image (steps acts (load_csv m initState))).2 = ResetOutcome.resetDone := by
  have h : (steps acts (load_csv m initState)).original_data = some m :=
    (steps_original acts (load_csv m initState)).trans rfl
  obtain ⟨hdata, hout⟩ := reset_data_of_original _ m h
  exact ⟨h, hdata, hout⟩

/-! Invariant machinery: after a load, every pixel of the working matrix is
either the originally loaded value or a value the fill dialog accepted. -/

lemma forall2_row_fill {a b : List ℚ} (mk : List Bool) (v : ℚ)
    (h : List.Forall₂ pixOK a b) (hlen : mk.length = b.length)
    (hv0 : 0 ≤ v) (hv1 : v ≤ 100) :
    List.Forall₂ pixOK a (List.zipWith (fun x y => if y then v else x) b mk) := by
  induction h generalizing mk with
  | nil => exact List.Forall₂.nil
  | cons hab htl ih =>
      cases mk with
      | nil => simp at hlen
      | cons c ct =>
          rw [List.zipWith_cons_cons]
          refine List.Forall₂.cons ?_ (ih ct (by simpa using hlen))
          cases c with
          | true => exact Or.inr ⟨hv0, hv1⟩
          | false => exact hab

lemma matOK_fillMask {m d : Mat} (mask : Mask) (v : ℚ)
    (h : matOK m d) (hshape : mask.map List.length = d.map List.length)
    (hv0 : 0 ≤ v) (hv1 : v ≤ 100) :
    matOK m (fillMask d mask v) := by
  induction h generalizing mask with
  | nil => exact List.Forall₂.nil
  | cons hab htl ih =>
      cases mask with
      | nil => simp at hshape
      | cons mr mt =>
          simp only [List.map_cons, List.cons.injEq] at hshape
          exact List.Forall₂.cons
            (forall2_row_fill mr v hab hshape.1 hv0 hv1)
            (ih mt hshape.2)

lemma matOK_refl (m : Mat) : matOK m m := by
  rw [matOK, List.forall₂_same]
  intro r _
  rw [List.forall₂_same]
  intro a _
  exact Or.inl rfl

lemma askfloat_bounds (lo hi : ℚ) (input : Option ℚ) (v : ℚ)
    (h : askfloat lo hi input = some v) : lo ≤ v ∧ v ≤ hi := by
  unfold askfloat at h
  cases input with
  | none => exact Option.noConfusion h
  | some w =>
      dsimp only at h
      by_cases hb : lo ≤ w ∧ w ≤ hi
      · rw [if_pos hb] at h
        cases h
        exact hb
      · rw [if_neg hb] at h
        exact Option.noConfusion h

lemma forall2_pixOK_getD {a b : List ℚ} (h : List.Forall₂ pixOK a b) (j : Nat) :
    pixOK (a.getD j 0) (b.getD j 0) := by
  induction h generalizing j with
  | nil => exact Or.inl rfl
  | cons hab htl ih =>
      cases j with
      | zero => exact hab
      | succ j => exact ih j

lemma matOK_pix {m d : Mat} (h : matOK m d) (i j : Nat) :
    pixOK (pix m i j) (pix d i j) := by
  induction h generalizing i with
  | nil => exact Or.inl rfl
  | cons hab htl ih =>
      cases i with
      | zero => exact forall2_pixOK_getD hab j
      | succ i => exact ih i

lemma fill_region_data_inv (m : Mat) (s : EditorState) (mask : Mask)
    (input : Option ℚ) (d : Mat) (hd : s.data = some d) (hok : matOK m d) :
    ∃ e, ((fill_region s mask input).1).data = some e ∧ matOK m e := by
  obtain ⟨dd, od, pts, sel⟩ := s
  cases hd
  unfold fill_region
  dsimp only
  by_cases h1 : selTruthy sel = false
  · rw [if_pos h1]
    exact ⟨d, rfl, hok⟩
  · rw [if_neg h1]
    by_cases h2 : countTrue mask = 0
    · rw [if_pos h2]
      exact ⟨d, rfl, hok⟩
    · rw [if_neg h2]
      by_cases h3 : mask.map List.length = d.map List.length
      · rw [if_neg (not_not_intro h3)]
        cases hask : askfloat 0 100 input with
        | none => exact ⟨d, rfl, hok⟩
        | some v =>
            obtain ⟨hv0, hv1⟩ := askfloat_bounds 0 100 input v hask
            exact ⟨fillMask d mask v, rfl, matOK_fillMask mask v hok h3 hv0 hv1⟩
      · rw [if_pos h3]
        exact ⟨d, rfl, hok⟩

lemma step_preserves_matOK (m : Mat) (s : EditorState) (a : Action)
    (horig : s.original_data = some m) (d : Mat) (hd : s.data = some d)
    (hok : matOK m d) :
    ∃ e, (step s a).data = some e ∧ matOK m e := by
  cases a with
  | click x y => exact ⟨d, (on_click_data s x y).trans hd, hok⟩
  | keyEnter => exact ⟨d, (on_key_enter_data s).trans hd, hok⟩
  | cancel => exact ⟨d, hd, hok⟩
  | fill mask input => exact fill_region_data_inv m s mask input d hd hok
  | reset =>
      obtain ⟨dd, od, pts, sel⟩ := s
      cases horig
      exact ⟨m, rfl, matOK_refl m⟩
  | undo =>
      obtain ⟨dd, od, pts, sel⟩ := s
      cases horig
      exact ⟨m, rfl, matOK_refl m⟩

lemma steps_preserves_matOK (m : Mat) (acts : List Action) (s : EditorState)
    (horig : s.original_data = some m) (d : Mat) (hd : s.data = some d)
    (hok : matOK m d) :
    ∃ e, (steps acts s).data = some e ∧ matOK m e := by
  induction acts generalizing s d with
  | nil => exact ⟨d, hd, hok⟩
  | cons a t ih =>
      obtain ⟨e, he, hoke⟩ := step_preserves_matOK m s a horig d hd hok
      exact ih (step s a) ((step_original s a).trans horig) e he hoke

/-- CLAIM C10.  After a load and any finite sequence of editor actions, the
working matrix still exists, keeps the loaded layout, and every pixel either
still holds its originally loaded value or holds a value in the fill dialog's
closed interval from 0 to 100 — because `askfloat` never hands back an entry
outside its bounds. -/
theorem fill_values_bounded (m : Mat) (acts : List Action) :
    ∃ d, (steps acts (load_csv m initState)).data = some d ∧ matOK m d ∧
      ∀ i j, pix d i j = pix m i j ∨ (0 ≤ pix d i j ∧ pix d i j ≤ 100) := by
  obtain ⟨d, hd, hok⟩ :=
    steps_preserves_matOK m acts (load_csv m initState) rfl m rfl (matOK_refl m)
  exact ⟨d, hd, hok, fun i j => matOK_pix hok i j⟩

/-! Pixelwise description of the masked overwrite, for the fill contract. -/

lemma rowFill_getD (dr : List ℚ) (mr : List Bool) (v : ℚ)
    (h : mr.length = dr.length) (j : Nat) :
    (List.zipWith (fun a b => if b then v else a) dr mr).getD j 0 =
      if mr.getD j false then v else dr.getD j 0 := by
  induction dr generalizing mr j with
  | nil =>
      cases mr with
      | nil => rfl
      | cons b mt => simp at h
  | cons a dt ih =>
      cases mr with
      | nil => simp at h
      | cons b mt =>
          rw [List.zipWith_cons_cons]
          cases j with
          | zero => rfl
          | succ j =>
              rw [List.getD_cons_succ, List.getD_cons_succ, List.getD_cons_succ]
              exact ih mt (by simpa using h) j

lemma pix_fillMask (d : Mat) (mask : Mask) (v : ℚ)
    (hshape : mask.map List.length = d.map List.length) (i j : Nat) :
    pix (fillMask d mask v) i j = if mpix mask i j then v else pix d i j := by
  induction d generalizing mask i with
  | nil =>
      cases mask with
      | nil => rfl
      | cons r mt => simp at hshape
  | cons dr dt ih =>
      cases mask with
      | nil => simp at hshape
      | cons mr mt =>
          simp only [List.map_cons, List.cons.injEq] at hshape
          cases i with
          | zero => exact rowFill_getD dr mr v hshape.1 j
          | succ i => exact ih mt hshape.2 i

lemma fillMask_map_length (d : Mat) (mask : Mask) (v : ℚ)
    (hshape : mask.map List.length = d.map List.length) :
    (fillMask d mask v).map List.length = d.map List.length := by
  induction d generalizing mask with
  | nil =>
      cases mask with
      | nil => rfl
      | cons r mt => simp at hshape
  | cons dr dt ih =>
      cases mask with
      | nil => simp at hshape
      | cons mr mt =>
          simp only [List.map_cons, List.cons.injEq] at hshape
          show (List.zipWith (fun a b => if b then v else a) dr mr).length ::
              (fillMask dt mt v).map List.length = dr.length :: dt.map List.length
          rw [List.length_zipWith, hshape.1, min_self, ih mt hshape.2]

/-! The reported pixel count: `np.sum(mask)` equals the number of index pairs
within the mask layout whose entry is true. -/

lemma length_filter_map_succ (p : Nat → Bool) (l : List Nat) :
    ((l.map Nat.succ).filter p).length = (l.filter (fun n => p (n + 1))).length := by
  induction l with
  | nil => rfl
  | cons a t ih =>
      simp only [List.map_cons, List.filter_cons]
      by_cases hp : p (a + 1) = true
      · rw [if_pos hp, if_pos hp, List.length_cons, List.length_cons, ih]
      · rw [if_neg hp, if_neg hp, ih]

lemma rowTrue (r : List Bool) :
    ((List.range r.length).filter (fun j => r.getD j false)).length = r.count true := by
  induction r with
  | nil => rfl
  | cons b t ih =>
      rw [List.length_cons, List.range_succ_eq_map, List.filter_cons]
      cases b with
      | false =>
          have hcond : ¬((false :: t).getD 0 false = true) := by simp
          rw [if_neg hcond, length_filter_map_succ]
          have hfun : (fun n => (false :: t).getD (n + 1) false) =
              fun n => t.getD n false := rfl
          rw [hfun, ih]
          simp [List.count_cons]
      | true =>
          have hcond : (true :: t).getD 0 false = true := rfl
          rw [if_pos hcond, List.length_cons, length_filter_map_succ]
          have hfun : (fun n => (true :: t).getD (n + 1) false) =
              fun n => t.getD n false := rfl
          rw [hfun, ih]
          simp [List.count_cons]

lemma countTrue_eq_trueCount (mask : Mask) : countTrue mask = trueCount mask := by
  induction mask with
  | nil => rfl
  | cons r t ih =>
      unfold countTrue trueCount
      simp only [List.map_cons, List.sum_cons, List.length_cons]
      rw [List.range_succ_eq_map]
      simp only [List.map_cons, List.sum_cons, List.map_map]
      have hhead : ((List.range ((r :: t).getD 0 []).length).filter
          (fun j => mpix (r :: t) 0 j)).length = r.count true := by
        have hfun : (fun j => mpix (r :: t) 0 j) = fun j => r.getD j false := rfl
        rw [hfun]
        exact rowTrue r
      rw [hhead]
      congr 1

/-- CLAIM C1.  The masked overwrite with value v: every pixel whose mask entry
is true reads back as v, every pixel whose mask entry is false keeps its
pre-fill value, the matrix layout is unchanged, and the reported
modified-pixel count `np.sum(mask)` equals the number of true mask entries. -/
theorem fill_overwrites_masked_pixels (d : Mat) (mask : Mask) (v : ℚ)
    (hshape : mask.map List.length = d.map List.length)
    (_hsome : 0 < countTrue mask) :
    (∀ i j, mpix mask i j = true → pix (fillMask d mask v) i j = v) ∧
    (∀ i j, mpix mask i j = false → pix (fillMask d mask v) i j = pix d i j) ∧
    (fillMask d mask v).map List.length = d.map List.length ∧
    countTrue mask = trueCount mask := by
  refine ⟨?_, ?_, fillMask_map_length d mask v hshape, countTrue_eq_trueCount mask⟩
  · intro i j h
    rw [pix_fillMask d mask v hshape i j, h]
    rfl
  · intro i j h
    rw [pix_fillMask d mask v hshape i j, h]
    rfl

/-- Witness for C1 on a concrete 2 by 2 matrix and a two-pixel mask. -/
theorem fill_overwrites_witness :
    (∀ i j, mpix [[true, false], [false, true]] i j = true →
      pix (fillMask [[(1 : ℚ), 2], [3, 4]] [[true, false], [false, true]] 7) i j = 7) ∧
    (∀ i j, mpix [[true, false], [false, true]] i j = false →
      pix (fillMask [[(1 : ℚ), 2], [3, 4]] [[true, false], [false, true]] 7) i j =
        pix [[(1 : ℚ), 2], [3, 4]] i j) ∧
    (fillMask [[(1 : ℚ), 2], [3, 4]] [[true, false], [false, true]] 7).map List.length =
      ([[(1 : ℚ), 2], [3, 4]] : Mat).map List.length ∧
    countTrue [[true, false], [false, true]] = trueCount [[true, false], [false, true]] :=
  fill_overwrites_masked_pixels [[(1 : ℚ), 2], [3, 4]] [[true, false], [false, true]] 7
    (by decide) (by decide)

end ThermalEditor
